import Mathlib

set_option linter.unusedVariables false

/-!
Verification of the bank-management ledger (src/new.py, class BankManagementSystem).

The SQLite store is modelled as an explicit state: the `users` table is a list of
`Account` rows in insertion order, the `transactions` table a list of `Transaction`
rows in insertion order.  `REAL` columns are modelled as `Rat`, `AUTOINCREMENT`
primary keys as counters in the state, and `CURRENT_TIMESTAMP` as a monotone
logical clock.  Each method of `BankManagementSystem` becomes a function from a
`BankState` to a result together with the successor state; a Python expression
that would raise (e.g. `fetchone()[0]` on a missing row) is modelled as `none`.
-/

/-- A row of the `users` table (src/new.py lines 29-39). -/
structure Account where
  account_number : Nat
  full_name : String
  email : String
  phone : String
  password : String
  balance : Rat
  created_at : Nat
  deriving DecidableEq

/-- A row of the `transactions` table (src/new.py lines 42-52). -/
structure Transaction where
  transaction_id : Nat
  account_number : Nat
  transaction_type : String
  amount : Rat
  balance_after : Rat
  transaction_date : Nat
  deriving DecidableEq

/-- The whole SQLite store plus the autoincrement counters and the clock. -/
structure BankState where
  users : List Account
  transactions : List Transaction
  next_account : Nat
  next_txid : Nat
  clock : Nat
  deriving DecidableEq

/-- The freshly created database: both tables empty, autoincrement starts at 1. -/
def initState : BankState :=
  { users := [], transactions := [], next_account := 1, next_txid := 1, clock := 0 }

/-- `SELECT ... FROM users WHERE account_number = ?` followed by `fetchone()`:
the first row whose `account_number` matches. -/
def findUser (s : BankState) (acc : Nat) : Option Account :=
  s.users.find? (fun u => u.account_number == acc)

/-- `BankManagementSystem.record_transaction` (lines 149-156): inserts a row into
the `transactions` table. -/
def record_transaction (s : BankState) (acc : Nat) (trans_type : String)
    (amount balance_after : Rat) : BankState :=
  { s with
    transactions := s.transactions ++
      [{ transaction_id := s.next_txid, account_number := acc,
         transaction_type := trans_type, amount := amount,
         balance_after := balance_after, transaction_date := s.clock }],
    next_txid := s.next_txid + 1,
    clock := s.clock + 1 }

/-- `BankManagementSystem.register_user` (lines 60-80): inserts a `users` row; the
`UNIQUE` constraint on `email` makes the insert fail with `IntegrityError`
(returning `None`) when the email already exists; otherwise, if
`initial_deposit > 0`, records an initial `Deposit` transaction and returns the
new account number. -/
def register_user (s : BankState) (full_name email phone password : String)
    (initial_deposit : Rat) : Option Nat × BankState :=
  if s.users.any (fun u => u.email == email) then
    (none, s)
  else
    let acct := s.next_account
    let nu : Account :=
      { account_number := acct, full_name := full_name, email := email,
        phone := phone, password := password, balance := initial_deposit,
        created_at := s.clock }
    let s1 : BankState :=
      { s with users := s.users ++ [nu], next_account := acct + 1,
               clock := s.clock + 1 }
    let s2 := if 0 < initial_deposit then
                record_transaction s1 acct "Deposit" initial_deposit initial_deposit
              else s1
    (some acct, s2)

/-- `BankManagementSystem.login_user` (lines 82-91): exact email+password match. -/
def login_user (s : BankState) (email password : String) : Option Account :=
  s.users.find? (fun u => u.email == email && u.password == password)

/-- `BankManagementSystem.deposit_money` (lines 93-111): `UPDATE users SET
balance = balance + ?`, then re-reads the balance (`fetchone()[0]` raises when
the account does not exist, modelled as `none`), then records a `Deposit`
transaction carrying the re-read balance.  No check on the sign of `amount`. -/
def deposit_money (s : BankState) (acc : Nat) (amount : Rat) :
    Option (Rat × BankState) :=
  let s1 : BankState :=
    { s with users := s.users.map (fun u =>
        if u.account_number == acc then { u with balance := u.balance + amount }
        else u) }
  match findUser s1 acc with
  | none => none
  | some u =>
    let new_balance := u.balance
    some (new_balance, record_transaction s1 acc "Deposit" amount new_balance)

/-- `BankManagementSystem.withdraw_money` (lines 113-137): reads the current
balance (`none` when the account does not exist), returns
`(None, "Insufficient funds")` without writing anything when
`current_balance < amount`, otherwise decrements the balance and records a
`Withdrawal` transaction with `balance_after = current_balance - amount`. -/
def withdraw_money (s : BankState) (acc : Nat) (amount : Rat) :
    Option (Option Rat × BankState) :=
  match findUser s acc with
  | none => none
  | some u =>
    if u.balance < amount then
      some (none, s)
    else
      let s1 : BankState :=
        { s with users := s.users.map (fun v =>
            if v.account_number == acc then { v with balance := v.balance - amount }
            else v) }
      let new_balance := u.balance - amount
      some (some new_balance,
            record_transaction s1 acc "Withdrawal" amount new_balance)

/-- `BankManagementSystem.get_balance` (lines 139-147). -/
def get_balance (s : BankState) (acc : Nat) : Option Rat :=
  (findUser s acc).map (fun u => u.balance)

/-- The rows of the `transactions` table belonging to one account, in insertion
order (the `WHERE account_number = ?` filter of lines 161-163). -/
def txs_of (s : BankState) (acc : Nat) : List Transaction :=
  s.transactions.filter (fun t => t.account_number == acc)

/-- Insert a transaction into a list that is sorted by descending
`transaction_date`, keeping it sorted. -/
def insertDesc (t : Transaction) : List Transaction → List Transaction
  | [] => [t]
  | h :: rest =>
    if h.transaction_date ≤ t.transaction_date then t :: h :: rest
    else h :: insertDesc t rest

/-- Sort a list of transactions by descending `transaction_date`, modelling
`ORDER BY transaction_date DESC`. -/
def sortDesc : List Transaction → List Transaction
  | [] => []
  | h :: rest => insertDesc h (sortDesc rest)

/-- `BankManagementSystem.get_transaction_history` (lines 158-168): the account's
transactions ordered by `transaction_date DESC`. -/
def get_transaction_history (s : BankState) (acc : Nat) : List Transaction :=
  sortDesc (txs_of s acc)

/-- The GUI deposit handler `process_transaction` (src/new.py lines 567-588,
deposit branch): a non-positive amount is rejected with a warning before any
service call; otherwise `deposit_money` runs. -/
def gui_deposit (s : BankState) (acc : Nat) (amount : Rat) : BankState :=
  if amount ≤ 0 then s
  else
    match deposit_money s acc amount with
    | none => s
    | some (_, s2) => s2

/-- The GUI withdrawal handler `process_transaction` (src/new.py lines 567-588,
withdrawal branch): a non-positive amount is rejected with a warning before any
service call; otherwise `withdraw_money` runs. -/
def gui_withdraw (s : BankState) (acc : Nat) (amount : Rat) : BankState :=
  if amount ≤ 0 then s
  else
    match withdraw_money s acc amount with
    | none => s
    | some (_, s2) => s2

/-- The most recent transaction of an account: since `transaction_date` is a
monotone clock and rows are appended in insertion order, it is the last row of
the account's filtered transaction list. -/
def mostRecentTx (s : BankState) (acc : Nat) : Option Transaction :=
  (txs_of s acc).getLast?

/-- One ledger-service call as issued by the application: registration carries a
non-negative initial deposit and deposits/withdrawals a positive amount (the
GUI validates these before calling the service, src/new.py lines 410-417 and
567-572). -/
inductive Step : BankState → BankState → Prop
  | register (s : BankState) (fn em ph pw : String) (d : Rat) (hd : 0 ≤ d) :
      Step s (register_user s fn em ph pw d).2
  | deposit (s s2 : BankState) (acc : Nat) (a b : Rat) (ha : 0 < a)
      (h : deposit_money s acc a = some (b, s2)) : Step s s2
  | withdraw (s s2 : BankState) (acc : Nat) (a : Rat) (r : Option Rat)
      (ha : 0 < a) (h : withdraw_money s acc a = some (r, s2)) : Step s s2

/-- States reachable from the fresh database by ledger-service calls. -/
inductive Reachable : BankState → Prop
  | init : Reachable initState
  | step (s s2 : BankState) (hs : Reachable s) (h : Step s s2) : Reachable s2

/-- Well-formedness of the store: balances are non-negative, account numbers
are below the autoincrement counter and pairwise distinct, transactions refer
to numbers below the counter, and the most recent transaction of any account
carries `balance_after` equal to that account's stored balance. -/
def StoreInv (s : BankState) : Prop :=
  (∀ u ∈ s.users, 0 ≤ u.balance) ∧
  (∀ u ∈ s.users, u.account_number < s.next_account) ∧
  (∀ t ∈ s.transactions, t.account_number < s.next_account) ∧
  s.users.Pairwise (fun u v => u.account_number ≠ v.account_number) ∧
  (∀ acc u t, findUser s acc = some u → mostRecentTx s acc = some t →
    t.balance_after = u.balance)

/-- A concrete store with one account (number 1, balance 100) used by witnesses. -/
def exAccount : Account :=
  { account_number := 1, full_name := "A", email := "a@x.com", phone := "555",
    password := "pw", balance := 100, created_at := 0 }

/-- A concrete one-account store used by witnesses. -/
def exState : BankState :=
  { users := [exAccount], transactions := [], next_account := 2, next_txid := 1,
    clock := 1 }

/-- The account row produced by registering "A" with deposit 100 on the fresh
database; used by witnesses. -/
def regAccount : Account :=
  { account_number := 1, full_name := "A", email := "a@x.com", phone := "555",
    password := "pw", balance := 100, created_at := 0 }

/-- The transaction row produced by that registration; used by witnesses. -/
def regTx : Transaction :=
  { transaction_id := 1, account_number := 1, transaction_type := "Deposit",
    amount := 100, balance_after := 100, transaction_date := 1 }

/-- The store after registering "A" with deposit 100 on the fresh database. -/
def regState : BankState := (register_user initState "A" "a@x.com" "555" "pw" 100).2

/-! ### Helper lemmas -/

/-- `find?` by account number commutes with a balance-only update map. -/
lemma find?_map_balance_update (l : List Account) (acc : Nat) (f : Rat → Rat) :
    (l.map (fun v =>
      if v.account_number == acc then { v with balance := f v.balance } else v)).find?
        (fun v => v.account_number == acc) =
    (l.find? (fun v => v.account_number == acc)).map (fun v =>
      if v.account_number == acc then { v with balance := f v.balance } else v) := by
  induction l with
  | nil => rfl
  | cons h t ih =>
    simp only [List.map_cons, List.find?_cons]
    by_cases hh : h.account_number = acc
    · simp [-List.find?_map, hh]
    · have hb : (h.account_number == acc) = false := by simp [hh]
      simpa [-List.find?_map, hb] using ih

/-! ### C1: successful withdrawal -/

/-- C1: for every account with current balance `b` and amount `a` with
`0 < a ≤ b`, `withdraw_money` succeeds, the stored balance becomes `b - a`, and
exactly one new `Withdrawal` transaction is appended whose amount is `a` and
whose `balance_after` equals `b - a`. -/
theorem withdraw_success_spec (s : BankState) (acc : Nat) (u : Account) (a : Rat)
    (hu : findUser s acc = some u) (h0 : 0 < a) (hle : a ≤ u.balance) :
    ∃ s2, withdraw_money s acc a = some (some (u.balance - a), s2) ∧
      get_balance s2 acc = some (u.balance - a) ∧
      ∃ tx, s2.transactions = s.transactions ++ [tx] ∧
        tx.transaction_type = "Withdrawal" ∧ tx.amount = a ∧
        tx.balance_after = u.balance - a := by
  have hu' : s.users.find? (fun v => v.account_number == acc) = some u := hu
  have hpu : u.account_number = acc := by
    simpa using List.find?_some hu'
  have hnlt : ¬ u.balance < a := not_lt.mpr hle
  have hfind : (s.users.map (fun v =>
      if v.account_number == acc then { v with balance := v.balance - a } else v)).find?
        (fun v => v.account_number == acc) =
      some { u with balance := u.balance - a } := by
    rw [find?_map_balance_update s.users acc (fun b => b - a), hu']
    simp [hpu]
  have hw : withdraw_money s acc a =
      some (some (u.balance - a),
        record_transaction
          { s with users := s.users.map (fun v =>
              if v.account_number == acc then { v with balance := v.balance - a }
              else v) }
          acc "Withdrawal" a (u.balance - a)) := by
    unfold withdraw_money
    rw [hu]
    simp [hnlt]
  refine ⟨_, hw, ?_, ⟨_, rfl, rfl, rfl, rfl⟩⟩
  show (Option.map (fun v => v.balance) (List.find? (fun v => v.account_number == acc)
      (s.users.map (fun v =>
        if v.account_number == acc then { v with balance := v.balance - a }
        else v)))) = some (u.balance - a)
  rw [hfind]
  rfl

/-- Witness for C1 at the concrete one-account store, withdrawing 40 from 100. -/
theorem withdraw_success_spec_witness :
    ∃ s2, withdraw_money exState 1 40 = some (some (exAccount.balance - 40), s2) ∧
      get_balance s2 1 = some (exAccount.balance - 40) ∧
      ∃ tx, s2.transactions = exState.transactions ++ [tx] ∧
        tx.transaction_type = "Withdrawal" ∧ tx.amount = 40 ∧
        tx.balance_after = exAccount.balance - 40 :=
  withdraw_success_spec exState 1 exAccount 40 rfl (by norm_num)
    (by norm_num [exAccount])

/-! ### C2: insufficient funds -/

/-- C2: for every account with current balance `b` and every amount `a > b`,
`withdraw_money` fails with the insufficient-funds error and the account's
stored balance is unchanged by the call. -/
theorem withdraw_insufficient_spec (s : BankState) (acc : Nat) (u : Account)
    (a : Rat) (hu : findUser s acc = some u) (hgt : u.balance < a) :
    ∃ s2, withdraw_money s acc a = some (none, s2) ∧
      get_balance s2 acc = get_balance s acc := by
  refine ⟨s, ?_, rfl⟩
  unfold withdraw_money
  rw [hu]
  simp [hgt]

/-- Witness for C2: withdrawing 150 from the one-account store with balance 100. -/
theorem withdraw_insufficient_spec_witness :
    ∃ s2, withdraw_money exState 1 150 = some (none, s2) ∧
      get_balance s2 1 = get_balance exState 1 :=
  withdraw_insufficient_spec exState 1 exAccount 150 rfl (by norm_num [exAccount])

/-! ### C10: a failing withdrawal is atomic -/

/-- C10: a withdrawal that fails for insufficient funds leaves the entire store
unchanged — the returned state is exactly the input state, so no balance update
happened and no transaction row was appended. -/
theorem withdraw_insufficient_atomic (s : BankState) (acc : Nat) (u : Account)
    (a : Rat) (hu : findUser s acc = some u) (hgt : u.balance < a) :
    withdraw_money s acc a = some (none, s) := by
  unfold withdraw_money
  rw [hu]
  simp [hgt]

/-- Witness for C10 at the concrete one-account store. -/
theorem withdraw_insufficient_atomic_witness :
    withdraw_money exState 1 150 = some (none, exState) :=
  withdraw_insufficient_atomic exState 1 exAccount 150 rfl (by norm_num [exAccount])

/-! ### C3: deposit -/

/-- C3: for every account with starting balance `b` and every amount `a > 0`,
`deposit_money` succeeds, yields new balance `b + a`, and appends exactly one
`Deposit` transaction whose amount is `a` and whose `balance_after` equals
`b + a`. -/
theorem deposit_adds_amount (s : BankState) (acc : Nat) (u : Account) (a : Rat)
    (hu : findUser s acc = some u) (ha : 0 < a) :
    ∃ s2, deposit_money s acc a = some (u.balance + a, s2) ∧
      get_balance s2 acc = some (u.balance + a) ∧
      ∃ tx, s2.transactions = s.transactions ++ [tx] ∧
        tx.transaction_type = "Deposit" ∧ tx.amount = a ∧
        tx.balance_after = u.balance + a := by
  have hu' : s.users.find? (fun v => v.account_number == acc) = some u := hu
  have hpu : u.account_number = acc := by simpa using List.find?_some hu'
  have hfind : (s.users.map (fun v =>
      if v.account_number == acc then { v with balance := v.balance + a } else v)).find?
        (fun v => v.account_number == acc) =
      some { u with balance := u.balance + a } := by
    rw [find?_map_balance_update s.users acc (fun b => b + a), hu']
    simp [hpu]
  have hdep : deposit_money s acc a =
      some (u.balance + a,
        record_transaction
          { s with users := s.users.map (fun v =>
              if v.account_number == acc then { v with balance := v.balance + a }
              else v) }
          acc "Deposit" a (u.balance + a)) := by
    unfold deposit_money
    simp only [findUser]
    rw [hfind]
  refine ⟨_, hdep, ?_, ⟨_, rfl, rfl, rfl, rfl⟩⟩
  show (Option.map (fun v => v.balance) (List.find? (fun v => v.account_number == acc)
      (s.users.map (fun v =>
        if v.account_number == acc then { v with balance := v.balance + a }
        else v)))) = some (u.balance + a)
  rw [hfind]
  rfl

/-- Witness for C3: depositing 5 into the one-account store with balance 100. -/
theorem deposit_adds_amount_witness :
    ∃ s2, deposit_money exState 1 5 = some (exAccount.balance + 5, s2) ∧
      get_balance s2 1 = some (exAccount.balance + 5) ∧
      ∃ tx, s2.transactions = exState.transactions ++ [tx] ∧
        tx.transaction_type = "Deposit" ∧ tx.amount = 5 ∧
        tx.balance_after = exAccount.balance + 5 :=
  deposit_adds_amount exState 1 exAccount 5 rfl (by norm_num)

/-! ### C5: duplicate email registration -/

/-- C5: when the store already contains an account with some email, a second
registration using the same email fails (the unique-email insert raises
`IntegrityError`, returned as `none`) and the whole store — in particular the
first account's row and its transactions — is returned unchanged. -/
theorem register_duplicate_email_spec (s : BankState) (u : Account)
    (fn ph pw : String) (d : Rat) (hu : u ∈ s.users) :
    register_user s fn u.email ph pw d = (none, s) := by
  unfold register_user
  have hany : s.users.any (fun v => v.email == u.email) = true :=
    List.any_eq_true.mpr ⟨u, hu, by simp⟩
  simp [hany]

/-- Witness for C5: re-registering the email already present in the
one-account store. -/
theorem register_duplicate_email_spec_witness :
    register_user exState "B" exAccount.email "666" "pw2" 50 = (none, exState) :=
  register_duplicate_email_spec exState exAccount "B" "666" "pw2" 50
    (by simp [exState])

/-! ### C6: where non-positive amounts are rejected -/

/-- Counterexample to C6 as stated: the ledger service itself does not reject
non-positive amounts.  At the concrete one-account store (balance 100),
`deposit_money` with amount `-5` succeeds, changes the stored balance to 95,
and appends a transaction row. -/
theorem deposit_nonpositive_not_rejected_cex :
    (-5 : Rat) ≤ 0 ∧
    ∃ r s2, deposit_money exState 1 (-5) = some (r, s2) ∧
      get_balance s2 1 = some 95 ∧ get_balance exState 1 = some 100 ∧
      s2.transactions.length = 1 ∧ exState.transactions.length = 0 := by
  refine ⟨by norm_num, 95,
    ⟨[⟨1, "A", "a@x.com", "555", "pw", 95, 0⟩],
     [⟨1, 1, "Deposit", -5, 95, 1⟩], 2, 2, 2⟩, ?_, ?_, ?_, rfl, rfl⟩
  · norm_num [deposit_money, findUser, record_transaction, exState, exAccount,
      List.find?]
  · norm_num [get_balance, findUser, List.find?]
  · norm_num [get_balance, findUser, exState, exAccount, List.find?]

/-- C6 (amended): the non-positive-amount check lives in the presentation
layer: the GUI transaction handler rejects any amount `a ≤ 0` before calling
the ledger service, leaving the whole store (balances and transaction history)
unchanged, for deposits and withdrawals alike. -/
theorem gui_rejects_nonpositive (s : BankState) (acc : Nat) (a : Rat)
    (ha : a ≤ 0) :
    gui_deposit s acc a = s ∧ gui_withdraw s acc a = s := by
  constructor
  · simp [gui_deposit, if_pos ha]
  · simp [gui_withdraw, if_pos ha]

/-- Witness for the amended C6 at the concrete one-account store. -/
theorem gui_rejects_nonpositive_witness :
    gui_deposit exState 1 (-5) = exState ∧ gui_withdraw exState 1 (-5) = exState :=
  gui_rejects_nonpositive exState 1 (-5) (by norm_num)

/-! ### C9: transaction history ordering -/

/-- Inserting into a descending-sorted list yields a permutation of consing. -/
lemma insertDesc_perm (t : Transaction) (l : List Transaction) :
    List.Perm (insertDesc t l) (t :: l) := by
  induction l with
  | nil => exact List.Perm.refl _
  | cons h rest ih =>
    unfold insertDesc
    by_cases hc : h.transaction_date ≤ t.transaction_date
    · rw [if_pos hc]
    · rw [if_neg hc]
      exact (List.Perm.cons h ih).trans (List.Perm.swap t h rest)

/-- `sortDesc` permutes its input. -/
lemma sortDesc_perm (l : List Transaction) : List.Perm (sortDesc l) l := by
  induction l with
  | nil => exact List.Perm.refl _
  | cons h rest ih =>
    exact (insertDesc_perm h (sortDesc rest)).trans (List.Perm.cons h ih)

/-- Inserting into a descending-sorted list keeps it sorted. -/
lemma insertDesc_sorted (t : Transaction) (l : List Transaction)
    (hl : l.Pairwise (fun a b => b.transaction_date ≤ a.transaction_date)) :
    (insertDesc t l).Pairwise
      (fun a b => b.transaction_date ≤ a.transaction_date) := by
  induction l with
  | nil => simp [insertDesc]
  | cons h rest ih =>
    rw [List.pairwise_cons] at hl
    obtain ⟨hhd, hrest⟩ := hl
    unfold insertDesc
    by_cases hc : h.transaction_date ≤ t.transaction_date
    · rw [if_pos hc]
      refine List.Pairwise.cons ?_ (List.Pairwise.cons hhd hrest)
      intro b hb
      rcases List.mem_cons.mp hb with hb | hb
      · subst hb; exact hc
      · exact le_trans (hhd b hb) hc
    · rw [if_neg hc]
      refine List.Pairwise.cons ?_ (ih hrest)
      intro b hb
      have hmem := (insertDesc_perm t rest).mem_iff.mp hb
      rcases List.mem_cons.mp hmem with hb2 | hb2
      · subst hb2; exact le_of_not_le hc
      · exact hhd b hb2

/-- `sortDesc` sorts by descending `transaction_date`. -/
lemma sortDesc_sorted (l : List Transaction) :
    (sortDesc l).Pairwise (fun a b => b.transaction_date ≤ a.transaction_date) := by
  induction l with
  | nil => simp [sortDesc]
  | cons h rest ih => exact insertDesc_sorted h _ ih

/-- C9: `get_transaction_history` returns exactly the given account's
transactions (a permutation of the account's rows, each belonging to that
account) ordered newest first by timestamp: each returned transaction's
`transaction_date` is greater than or equal to the next one's. -/
theorem get_transaction_history_spec (s : BankState) (acc : Nat) :
    List.Perm (get_transaction_history s acc) (txs_of s acc) ∧
    (∀ t ∈ get_transaction_history s acc, t.account_number = acc) ∧
    (get_transaction_history s acc).Pairwise
      (fun a b => b.transaction_date ≤ a.transaction_date) := by
  refine ⟨sortDesc_perm _, ?_, sortDesc_sorted _⟩
  intro t ht
  have hmem := (sortDesc_perm (txs_of s acc)).mem_iff.mp ht
  have hfil := List.mem_filter.mp hmem
  simpa using hfil.2

/-! ### Inversion and preservation helpers for the step relation -/

/-- The balance-only update map preserves `account_number`. -/
lemma updated_account_number (acc : Nat) (f : Rat → Rat) (v : Account) :
    ((if v.account_number == acc then { v with balance := f v.balance }
      else v) : Account).account_number = v.account_number := by
  by_cases h : (v.account_number == acc) = true
  · rw [if_pos h]
  · rw [if_neg h]

/-- `find?` of any account number commutes with a balance-only update map of a
possibly different account number. -/
lemma find?_map_update (l : List Account) (acc acc2 : Nat) (f : Rat → Rat) :
    (l.map (fun v =>
      if v.account_number == acc then { v with balance := f v.balance } else v)).find?
        (fun v => v.account_number == acc2) =
    (l.find? (fun v => v.account_number == acc2)).map (fun v =>
      if v.account_number == acc then { v with balance := f v.balance } else v) := by
  induction l with
  | nil => rfl
  | cons h t ih =>
    simp only [List.map_cons, List.find?_cons]
    by_cases hh : h.account_number = acc2
    · have hgb : (((if h.account_number == acc then { h with balance := f h.balance }
          else h) : Account).account_number == acc2) = true := by
        rw [updated_account_number]
        simp [hh]
      have hb : (h.account_number == acc2) = true := by simp [hh]
      rw [hgb, hb]
      rfl
    · have hgb : (((if h.account_number == acc then { h with balance := f h.balance }
          else h) : Account).account_number == acc2) = false := by
        rw [updated_account_number]
        simp [hh]
      have hb : (h.account_number == acc2) = false := by simp [hh]
      rw [hgb, hb]
      exact ih

/-- When account numbers are pairwise distinct, `find?` returns any member with
the matching number. -/
lemma find?_eq_of_mem_nodup (l : List Account) (acc : Nat)
    (hnd : l.Pairwise (fun u v => u.account_number ≠ v.account_number))
    (u : Account) (hu : u ∈ l) (hacc : u.account_number = acc) :
    l.find? (fun v => v.account_number == acc) = some u := by
  induction l with
  | nil => simp at hu
  | cons h t ih =>
    rw [List.pairwise_cons] at hnd
    obtain ⟨hhd, ht⟩ := hnd
    rcases List.mem_cons.mp hu with rfl | hu2
    · rw [List.find?_cons]
      have hb : (u.account_number == acc) = true := by simp [hacc]
      rw [hb]
    · have hne : h.account_number ≠ acc := fun he =>
        (hhd u hu2) (he.trans hacc.symm)
      rw [List.find?_cons]
      have hb : (h.account_number == acc) = false := by simp [hne]
      rw [hb]
      exact ih ht hu2

/-- Evaluation of `deposit_money` when the account exists. -/
lemma deposit_money_of_found (s : BankState) (acc : Nat) (u : Account) (a : Rat)
    (hu : findUser s acc = some u) :
    deposit_money s acc a =
      some (u.balance + a,
        record_transaction
          { s with users := s.users.map (fun v =>
              if v.account_number == acc then { v with balance := v.balance + a }
              else v) }
          acc "Deposit" a (u.balance + a)) := by
  have hu' : s.users.find? (fun v => v.account_number == acc) = some u := hu
  have hpu : u.account_number = acc := by simpa using List.find?_some hu'
  have hfind : (s.users.map (fun v =>
      if v.account_number == acc then { v with balance := v.balance + a } else v)).find?
        (fun v => v.account_number == acc) =
      some { u with balance := u.balance + a } := by
    rw [find?_map_balance_update s.users acc (fun b => b + a), hu']
    simp [hpu]
  unfold deposit_money
  simp only [findUser]
  rw [hfind]

/-- Evaluation of `deposit_money` when the account does not exist. -/
lemma deposit_money_of_not_found (s : BankState) (acc : Nat) (a : Rat)
    (hu : findUser s acc = none) :
    deposit_money s acc a = none := by
  have hu' : s.users.find? (fun v => v.account_number == acc) = none := hu
  have hfind : (s.users.map (fun v =>
      if v.account_number == acc then { v with balance := v.balance + a } else v)).find?
        (fun v => v.account_number == acc) = none := by
    rw [find?_map_balance_update s.users acc (fun b => b + a), hu']
    rfl
  unfold deposit_money
  simp only [findUser]
  rw [hfind]

/-- Evaluation of `withdraw_money` when the account exists and covers the
amount. -/
lemma withdraw_money_of_found_ge (s : BankState) (acc : Nat) (u : Account)
    (a : Rat) (hu : findUser s acc = some u) (hnlt : ¬ u.balance < a) :
    withdraw_money s acc a =
      some (some (u.balance - a),
        record_transaction
          { s with users := s.users.map (fun v =>
              if v.account_number == acc then { v with balance := v.balance - a }
              else v) }
          acc "Withdrawal" a (u.balance - a)) := by
  unfold withdraw_money
  rw [hu]
  simp [hnlt]

/-- Evaluation of `withdraw_money` when the balance is short. -/
lemma withdraw_money_of_found_lt (s : BankState) (acc : Nat) (u : Account)
    (a : Rat) (hu : findUser s acc = some u) (hlt : u.balance < a) :
    withdraw_money s acc a = some (none, s) := by
  unfold withdraw_money
  rw [hu]
  simp [hlt]

/-- Evaluation of `withdraw_money` when the account does not exist. -/
lemma withdraw_money_of_not_found (s : BankState) (acc : Nat) (a : Rat)
    (hu : findUser s acc = none) :
    withdraw_money s acc a = none := by
  unfold withdraw_money
  rw [hu]

/-- `find?_map_update` specialised to the deposit update. -/
lemma find?_map_update_add (l : List Account) (acc acc2 : Nat) (a : Rat) :
    (l.map (fun v =>
      if v.account_number == acc then { v with balance := v.balance + a } else v)).find?
        (fun v => v.account_number == acc2) =
    (l.find? (fun v => v.account_number == acc2)).map (fun v =>
      if v.account_number == acc then { v with balance := v.balance + a } else v) :=
  find?_map_update l acc acc2 (fun b => b + a)

/-- `find?_map_update` specialised to the withdrawal update. -/
lemma find?_map_update_sub (l : List Account) (acc acc2 : Nat) (a : Rat) :
    (l.map (fun v =>
      if v.account_number == acc then { v with balance := v.balance - a } else v)).find?
        (fun v => v.account_number == acc2) =
    (l.find? (fun v => v.account_number == acc2)).map (fun v =>
      if v.account_number == acc then { v with balance := v.balance - a } else v) :=
  find?_map_update l acc acc2 (fun b => b - a)

/-- The fresh database satisfies the store invariant. -/
lemma storeInv_init : StoreInv initState := by
  refine ⟨?_, ?_, ?_, ?_, ?_⟩
  · intro u hu; simp [initState] at hu
  · intro u hu; simp [initState] at hu
  · intro t ht; simp [initState] at ht
  · simp [initState]
  · intro acc u t hu ht
    simp [findUser, initState] at hu

/-- Registration preserves the store invariant. -/
lemma storeInv_register (s : BankState) (fn em ph pw : String) (d : Rat)
    (hd : 0 ≤ d) (hinv : StoreInv s) :
    StoreInv (register_user s fn em ph pw d).2 := by
  obtain ⟨hbal, husern, htxn, hnodup, hsync⟩ := hinv
  by_cases hdup : s.users.any (fun u => u.email == em) = true
  · have heq : (register_user s fn em ph pw d).2 = s := by
      unfold register_user
      rw [if_pos hdup]
    rw [heq]
    exact ⟨hbal, husern, htxn, hnodup, hsync⟩
  · have hne : ∀ u ∈ s.users, u.account_number ≠ s.next_account :=
      fun u hu => Nat.ne_of_lt (husern u hu)
    have htne : ∀ t ∈ s.transactions, t.account_number ≠ s.next_account :=
      fun t ht => Nat.ne_of_lt (htxn t ht)
    by_cases hd0 : 0 < d
    · have heq : (register_user s fn em ph pw d).2 =
          (⟨s.users ++ [⟨s.next_account, fn, em, ph, pw, d, s.clock⟩],
            s.transactions ++
              [⟨s.next_txid, s.next_account, "Deposit", d, d, s.clock + 1⟩],
            s.next_account + 1, s.next_txid + 1, s.clock + 1 + 1⟩ : BankState) := by
        unfold register_user
        rw [if_neg hdup]
        simp [record_transaction, hd0]
      rw [heq]
      refine ⟨?_, ?_, ?_, ?_, ?_⟩
      · intro u hu
        rcases List.mem_append.mp hu with hu2 | hu2
        · exact hbal u hu2
        · rcases List.mem_singleton.mp hu2 with rfl
          exact hd
      · intro u hu
        rcases List.mem_append.mp hu with hu2 | hu2
        · exact Nat.lt_succ_of_lt (husern u hu2)
        · rcases List.mem_singleton.mp hu2 with rfl
          exact Nat.lt_succ_self _
      · intro t ht
        rcases List.mem_append.mp ht with ht2 | ht2
        · exact Nat.lt_succ_of_lt (htxn t ht2)
        · rcases List.mem_singleton.mp ht2 with rfl
          exact Nat.lt_succ_self _
      · refine List.pairwise_append.mpr ⟨hnodup, List.pairwise_singleton _ _, ?_⟩
        intro u hu v hv
        rcases List.mem_singleton.mp hv with rfl
        exact hne u hu
      · intro acc u t hfu hlast
        have hfu2 : (s.users ++
            [(⟨s.next_account, fn, em, ph, pw, d, s.clock⟩ : Account)]).find?
            (fun v => v.account_number == acc) = some u := hfu
        have hlast2 : ((s.transactions ++
            [(⟨s.next_txid, s.next_account, "Deposit", d, d, s.clock + 1⟩ :
              Transaction)]).filter
            (fun t2 => t2.account_number == acc)).getLast? = some t := hlast
        rw [List.find?_append] at hfu2
        rw [List.filter_append] at hlast2
        cases hold : s.users.find? (fun v => v.account_number == acc) with
        | some u0 =>
          rw [hold] at hfu2
          rw [Option.or_some, Option.some.injEq] at hfu2
          subst hfu2
          have hacc : u0.account_number = acc := by
            simpa using List.find?_some hold
          have haccne : s.next_account ≠ acc := fun he =>
            hne u0 (List.mem_of_find?_eq_some hold) (hacc.trans he.symm)
          have hfil : ([(⟨s.next_txid, s.next_account, "Deposit", d, d,
              s.clock + 1⟩ : Transaction)].filter
              (fun t2 => t2.account_number == acc)) = [] := by
            simp [haccne]
          rw [hfil, List.append_nil] at hlast2
          exact hsync acc u0 t hold hlast2
        | none =>
          rw [hold] at hfu2
          rw [Option.none_or] at hfu2
          by_cases hacc : s.next_account = acc
          · subst hacc
            obtain rfl : (⟨s.next_account, fn, em, ph, pw, d, s.clock⟩ : Account) = u := by
              simpa using hfu2
            have hfilold : s.transactions.filter
                (fun t2 => t2.account_number == s.next_account) = [] :=
              List.filter_eq_nil_iff.mpr (fun t2 ht2 => by simp [htne t2 ht2])
            rw [hfilold] at hlast2
            have hfilnew : ([(⟨s.next_txid, s.next_account, "Deposit", d, d,
                s.clock + 1⟩ : Transaction)].filter
                (fun t2 => t2.account_number == s.next_account)) =
                [⟨s.next_txid, s.next_account, "Deposit", d, d, s.clock + 1⟩] := by
              simp
            rw [hfilnew, List.nil_append] at hlast2
            obtain rfl : (⟨s.next_txid, s.next_account, "Deposit", d, d,
                s.clock + 1⟩ : Transaction) = t := by
              simpa using hlast2
            rfl
          · simp [hacc] at hfu2
    · have heq : (register_user s fn em ph pw d).2 =
          (⟨s.users ++ [⟨s.next_account, fn, em, ph, pw, d, s.clock⟩],
            s.transactions, s.next_account + 1, s.next_txid, s.clock + 1⟩ :
            BankState) := by
        unfold register_user
        rw [if_neg hdup]
        simp [hd0]
      rw [heq]
      refine ⟨?_, ?_, ?_, ?_, ?_⟩
      · intro u hu
        rcases List.mem_append.mp hu with hu2 | hu2
        · exact hbal u hu2
        · rcases List.mem_singleton.mp hu2 with rfl
          exact hd
      · intro u hu
        rcases List.mem_append.mp hu with hu2 | hu2
        · exact Nat.lt_succ_of_lt (husern u hu2)
        · rcases List.mem_singleton.mp hu2 with rfl
          exact Nat.lt_succ_self _
      · intro t ht
        exact Nat.lt_succ_of_lt (htxn t ht)
      · refine List.pairwise_append.mpr ⟨hnodup, List.pairwise_singleton _ _, ?_⟩
        intro u hu v hv
        rcases List.mem_singleton.mp hv with rfl
        exact hne u hu
      · intro acc u t hfu hlast
        have hfu2 : (s.users ++
            [(⟨s.next_account, fn, em, ph, pw, d, s.clock⟩ : Account)]).find?
            (fun v => v.account_number == acc) = some u := hfu
        have hlast2 : (s.transactions.filter
            (fun t2 => t2.account_number == acc)).getLast? = some t := hlast
        rw [List.find?_append] at hfu2
        cases hold : s.users.find? (fun v => v.account_number == acc) with
        | some u0 =>
          rw [hold] at hfu2
          rw [Option.or_some, Option.some.injEq] at hfu2
          subst hfu2
          exact hsync acc u0 t hold hlast2
        | none =>
          rw [hold] at hfu2
          rw [Option.none_or] at hfu2
          by_cases hacc : s.next_account = acc
          · subst hacc
            have hfilold : s.transactions.filter
                (fun t2 => t2.account_number == s.next_account) = [] :=
              List.filter_eq_nil_iff.mpr (fun t2 ht2 => by simp [htne t2 ht2])
            rw [hfilold] at hlast2
            simp at hlast2
          · simp [hacc] at hfu2

/-- A successful deposit preserves the store invariant. -/
lemma storeInv_deposit (s s2 : BankState) (acc : Nat) (a b : Rat) (ha : 0 < a)
    (h : deposit_money s acc a = some (b, s2)) (hinv : StoreInv s) :
    StoreInv s2 := by
  obtain ⟨hbal, husern, htxn, hnodup, hsync⟩ := hinv
  cases hfu : findUser s acc with
  | none =>
    rw [deposit_money_of_not_found s acc a hfu] at h
    exact absurd h (by simp)
  | some u =>
    rw [deposit_money_of_found s acc u a hfu] at h
    have hfu' : s.users.find? (fun v => v.account_number == acc) = some u := hfu
    have hpu : u.account_number = acc := by simpa using List.find?_some hfu'
    have humem : u ∈ s.users := List.mem_of_find?_eq_some hfu'
    have haccl : acc < s.next_account := hpu ▸ husern u humem
    rw [Option.some.injEq, Prod.mk.injEq] at h
    obtain ⟨hb, hs2⟩ := h
    subst hs2
    refine ⟨?_, ?_, ?_, ?_, ?_⟩
    · intro v hv
      have hv2 : v ∈ s.users.map (fun w =>
          if w.account_number == acc then { w with balance := w.balance + a }
          else w) := hv
      obtain ⟨w, hw, rfl⟩ := List.mem_map.mp hv2
      by_cases hwacc : (w.account_number == acc) = true
      · rw [if_pos hwacc]
        exact add_nonneg (hbal w hw) (le_of_lt ha)
      · rw [if_neg hwacc]
        exact hbal w hw
    · intro v hv
      have hv2 : v ∈ s.users.map (fun w =>
          if w.account_number == acc then { w with balance := w.balance + a }
          else w) := hv
      obtain ⟨w, hw, rfl⟩ := List.mem_map.mp hv2
      by_cases hwacc : (w.account_number == acc) = true
      · rw [if_pos hwacc]
        exact husern w hw
      · rw [if_neg hwacc]
        exact husern w hw
    · intro t ht
      have ht2 : t ∈ s.transactions ++
          [(⟨s.next_txid, acc, "Deposit", a, u.balance + a, s.clock⟩ :
            Transaction)] := ht
      rcases List.mem_append.mp ht2 with ht3 | ht3
      · exact htxn t ht3
      · rcases List.mem_singleton.mp ht3 with rfl
        exact haccl
    · refine List.pairwise_map.mpr (hnodup.imp ?_)
      intro x y hxy heq2
      apply hxy
      by_cases hx : (x.account_number == acc) = true
      · by_cases hy : (y.account_number == acc) = true
        · rw [if_pos hx, if_pos hy] at heq2
          exact heq2
        · rw [if_pos hx, if_neg hy] at heq2
          exact heq2
      · by_cases hy : (y.account_number == acc) = true
        · rw [if_neg hx, if_pos hy] at heq2
          exact heq2
        · rw [if_neg hx, if_neg hy] at heq2
          exact heq2
    · intro acc2 v t hfv hlast
      have hfv2 : (s.users.map (fun w =>
          if w.account_number == acc then { w with balance := w.balance + a }
          else w)).find? (fun w => w.account_number == acc2) = some v := hfv
      rw [find?_map_update_add s.users acc acc2 a] at hfv2
      cases hold : s.users.find? (fun w => w.account_number == acc2) with
      | none =>
        rw [hold] at hfv2
        simp at hfv2
      | some w =>
        rw [hold] at hfv2
        rw [Option.map_some', Option.some.injEq] at hfv2
        have hwacc2 : w.account_number = acc2 := by
          simpa using List.find?_some hold
        by_cases hacc2 : acc2 = acc
        · subst hacc2
          have hold2 : findUser s acc2 = some w := hold
          obtain rfl : w = u := Option.some.inj (hold2.symm.trans hfu)
          have hwaccb : (w.account_number == acc2) = true := by simp [hwacc2]
          rw [if_pos hwaccb] at hfv2
          have hlast2 : ((s.transactions ++
              [(⟨s.next_txid, acc2, "Deposit", a, w.balance + a, s.clock⟩ :
                Transaction)]).filter
              (fun t2 => t2.account_number == acc2)).getLast? = some t := hlast
          rw [List.filter_append] at hlast2
          have hfil : ([(⟨s.next_txid, acc2, "Deposit", a, w.balance + a,
              s.clock⟩ : Transaction)].filter
              (fun t2 => t2.account_number == acc2)) =
              [⟨s.next_txid, acc2, "Deposit", a, w.balance + a, s.clock⟩] := by
            simp
          rw [hfil, List.getLast?_concat] at hlast2
          obtain rfl : (⟨s.next_txid, acc2, "Deposit", a, w.balance + a,
              s.clock⟩ : Transaction) = t := Option.some.inj hlast2
          rw [← hfv2]
        · have hwaccb : ¬ ((w.account_number == acc) = true) := by
            simp [hwacc2, hacc2]
          rw [if_neg hwaccb] at hfv2
          subst hfv2
          have hold2 : findUser s acc2 = some w := hold
          have hne2 : acc ≠ acc2 := fun he => hacc2 he.symm
          have hlast2 : ((s.transactions ++
              [(⟨s.next_txid, acc, "Deposit", a, u.balance + a, s.clock⟩ :
                Transaction)]).filter
              (fun t2 => t2.account_number == acc2)).getLast? = some t := hlast
          rw [List.filter_append] at hlast2
          have hfil : ([(⟨s.next_txid, acc, "Deposit", a, u.balance + a,
              s.clock⟩ : Transaction)].filter
              (fun t2 => t2.account_number == acc2)) = [] := by
            simp [hne2]
          rw [hfil, List.append_nil] at hlast2
          exact hsync acc2 w t hold2 hlast2

/-- A withdrawal call preserves the store invariant. -/
lemma storeInv_withdraw (s s2 : BankState) (acc : Nat) (a : Rat)
    (r : Option Rat) (ha : 0 < a)
    (h : withdraw_money s acc a = some (r, s2)) (hinv : StoreInv s) :
    StoreInv s2 := by
  obtain ⟨hbal, husern, htxn, hnodup, hsync⟩ := hinv
  cases hfu : findUser s acc with
  | none =>
    rw [withdraw_money_of_not_found s acc a hfu] at h
    exact absurd h (by simp)
  | some u =>
    by_cases hlt : u.balance < a
    · rw [withdraw_money_of_found_lt s acc u a hfu hlt] at h
      rw [Option.some.injEq, Prod.mk.injEq] at h
      obtain ⟨hr, hs2⟩ := h
      subst hs2
      exact ⟨hbal, husern, htxn, hnodup, hsync⟩
    · rw [withdraw_money_of_found_ge s acc u a hfu hlt] at h
      have hfu' : s.users.find? (fun v => v.account_number == acc) = some u := hfu
      have hpu : u.account_number = acc := by simpa using List.find?_some hfu'
      have humem : u ∈ s.users := List.mem_of_find?_eq_some hfu'
      have haccl : acc < s.next_account := hpu ▸ husern u humem
      have hge : a ≤ u.balance := not_lt.mp hlt
      rw [Option.some.injEq, Prod.mk.injEq] at h
      obtain ⟨hr, hs2⟩ := h
      subst hs2
      refine ⟨?_, ?_, ?_, ?_, ?_⟩
      · intro v hv
        have hv2 : v ∈ s.users.map (fun w =>
            if w.account_number == acc then { w with balance := w.balance - a }
            else w) := hv
        obtain ⟨w, hw, rfl⟩ := List.mem_map.mp hv2
        by_cases hwacc : (w.account_number == acc) = true
        · rw [if_pos hwacc]
          have hwnum : w.account_number = acc := by simpa using hwacc
          have : s.users.find? (fun v => v.account_number == acc) = some w :=
            find?_eq_of_mem_nodup s.users acc hnodup w hw hwnum
          obtain rfl : w = u := Option.some.inj (this.symm.trans hfu')
          exact sub_nonneg.mpr hge
        · rw [if_neg hwacc]
          exact hbal w hw
      · intro v hv
        have hv2 : v ∈ s.users.map (fun w =>
            if w.account_number == acc then { w with balance := w.balance - a }
            else w) := hv
        obtain ⟨w, hw, rfl⟩ := List.mem_map.mp hv2
        by_cases hwacc : (w.account_number == acc) = true
        · rw [if_pos hwacc]
          exact husern w hw
        · rw [if_neg hwacc]
          exact husern w hw
      · intro t ht
        have ht2 : t ∈ s.transactions ++
            [(⟨s.next_txid, acc, "Withdrawal", a, u.balance - a, s.clock⟩ :
              Transaction)] := ht
        rcases List.mem_append.mp ht2 with ht3 | ht3
        · exact htxn t ht3
        · rcases List.mem_singleton.mp ht3 with rfl
          exact haccl
      · refine List.pairwise_map.mpr (hnodup.imp ?_)
        intro x y hxy heq2
        apply hxy
        by_cases hx : (x.account_number == acc) = true
        · by_cases hy : (y.account_number == acc) = true
          · rw [if_pos hx, if_pos hy] at heq2
            exact heq2
          · rw [if_pos hx, if_neg hy] at heq2
            exact heq2
        · by_cases hy : (y.account_number == acc) = true
          · rw [if_neg hx, if_pos hy] at heq2
            exact heq2
          · rw [if_neg hx, if_neg hy] at heq2
            exact heq2
      · intro acc2 v t hfv hlast
        have hfv2 : (s.users.map (fun w =>
            if w.account_number == acc then { w with balance := w.balance - a }
            else w)).find? (fun w => w.account_number == acc2) = some v := hfv
        rw [find?_map_update_sub s.users acc acc2 a] at hfv2
        cases hold : s.users.find? (fun w => w.account_number == acc2) with
        | none =>
          rw [hold] at hfv2
          simp at hfv2
        | some w =>
          rw [hold] at hfv2
          rw [Option.map_some', Option.some.injEq] at hfv2
          have hwacc2 : w.account_number = acc2 := by
            simpa using List.find?_some hold
          by_cases hacc2 : acc2 = acc
          · subst hacc2
            have hold2 : findUser s acc2 = some w := hold
            obtain rfl : w = u := Option.some.inj (hold2.symm.trans hfu)
            have hwaccb : (w.account_number == acc2) = true := by simp [hwacc2]
            rw [if_pos hwaccb] at hfv2
            have hlast2 : ((s.transactions ++
                [(⟨s.next_txid, acc2, "Withdrawal", a, w.balance - a, s.clock⟩ :
                  Transaction)]).filter
                (fun t2 => t2.account_number == acc2)).getLast? = some t := hlast
            rw [List.filter_append] at hlast2
            have hfil : ([(⟨s.next_txid, acc2, "Withdrawal", a, w.balance - a,
                s.clock⟩ : Transaction)].filter
                (fun t2 => t2.account_number == acc2)) =
                [⟨s.next_txid, acc2, "Withdrawal", a, w.balance - a, s.clock⟩] := by
              simp
            rw [hfil, List.getLast?_concat] at hlast2
            obtain rfl : (⟨s.next_txid, acc2, "Withdrawal", a, w.balance - a,
                s.clock⟩ : Transaction) = t := Option.some.inj hlast2
            rw [← hfv2]
          · have hwaccb : ¬ ((w.account_number == acc) = true) := by
              simp [hwacc2, hacc2]
            rw [if_neg hwaccb] at hfv2
            subst hfv2
            have hold2 : findUser s acc2 = some w := hold
            have hne2 : acc ≠ acc2 := fun he => hacc2 he.symm
            have hlast2 : ((s.transactions ++
                [(⟨s.next_txid, acc, "Withdrawal", a, u.balance - a, s.clock⟩ :
                  Transaction)]).filter
                (fun t2 => t2.account_number == acc2)).getLast? = some t := hlast
            rw [List.filter_append] at hlast2
            have hfil : ([(⟨s.next_txid, acc, "Withdrawal", a, u.balance - a,
                s.clock⟩ : Transaction)].filter
                (fun t2 => t2.account_number == acc2)) = [] := by
              simp [hne2]
            rw [hfil, List.append_nil] at hlast2
            exact hsync acc2 w t hold2 hlast2

/-- Every reachable store satisfies the invariant. -/
lemma storeInv_reachable (s : BankState) (hs : Reachable s) : StoreInv s := by
  induction hs with
  | init => exact storeInv_init
  | step s s2 hs hstep ih =>
    cases hstep with
    | register fn em ph pw d hd => exact storeInv_register s fn em ph pw d hd ih
    | deposit s3 acc a b ha h => exact storeInv_deposit s s2 acc a b ha h ih
    | withdraw s3 acc a r ha h => exact storeInv_withdraw s s2 acc a r ha h ih

/-- The registration example evaluates to an explicit store. -/
lemma regState_eq :
    regState = ⟨[regAccount], [regTx], 2, 2, 2⟩ := by
  norm_num [regState, register_user, initState, record_transaction, regAccount,
    regTx]

/-- The registration example is a reachable store. -/
lemma regState_reachable : Reachable regState :=
  Reachable.step _ _ Reachable.init
    (Step.register initState "A" "a@x.com" "555" "pw" 100 (by norm_num))

/-! ### C7: the most recent transaction snapshots the balance -/

/-- C7: in every state reachable by register, deposit, and withdraw operations,
for every account that has at least one transaction, the `balance_after` field
of that account's most recent transaction equals the account's current stored
balance. -/
theorem most_recent_tx_matches_balance (s : BankState) (hs : Reachable s)
    (acc : Nat) (u : Account) (t : Transaction) (hu : findUser s acc = some u)
    (ht : mostRecentTx s acc = some t) : t.balance_after = u.balance :=
  (storeInv_reachable s hs).2.2.2.2 acc u t hu ht

/-- Witness for C7: after registering "A" with deposit 100 on the fresh
database, the single account's most recent transaction snapshots its balance. -/
theorem most_recent_tx_matches_balance_witness :
    regTx.balance_after = regAccount.balance :=
  most_recent_tx_matches_balance regState regState_reachable 1 regAccount regTx
    (by rw [regState_eq]; rfl) (by rw [regState_eq]; rfl)

/-! ### C8: balances never go negative -/

/-- C8: in every state reachable from the empty store by register
(initial deposit ≥ 0), deposit (amount > 0) and withdraw (amount > 0) calls,
every account's stored balance is non-negative. -/
theorem balances_nonneg (s : BankState) (hs : Reachable s) (u : Account)
    (hu : u ∈ s.users) : 0 ≤ u.balance :=
  (storeInv_reachable s hs).1 u hu

/-- Witness for C8 at the registration example store. -/
theorem balances_nonneg_witness : 0 ≤ regAccount.balance :=
  balances_nonneg regState regState_reachable regAccount
    (by rw [regState_eq]; exact List.mem_singleton.mpr rfl)

/-! ### C4: valid registration -/

/-- C4: for every reachable store, registering a fresh email with initial
deposit `d ≥ 0` succeeds with the next account number; the created account's
balance equals `d`; the account has exactly one transaction row — a `Deposit`
of `d` with `balance_after = d` — when `d > 0`, and zero rows when `d = 0`. -/
theorem register_fresh_spec (s : BankState) (hs : Reachable s)
    (fn em ph pw : String) (d : Rat) (hd : 0 ≤ d)
    (hfresh : ∀ u ∈ s.users, u.email ≠ em) :
    ∃ s2, register_user s fn em ph pw d = (some s.next_account, s2) ∧
      ∃ u, findUser s2 s.next_account = some u ∧ u.balance = d ∧
        (0 < d → ∃ tx, txs_of s2 s.next_account = [tx] ∧
          tx.transaction_type = "Deposit" ∧ tx.amount = d ∧
          tx.balance_after = d) ∧
        (d = 0 → txs_of s2 s.next_account = []) := by
  obtain ⟨hbal, husern, htxn, hnodup, hsync⟩ := storeInv_reachable s hs
  have hany : s.users.any (fun u => u.email == em) = false :=
    List.any_eq_false.mpr (fun u hu => by simp [hfresh u hu])
  have hdup : ¬ s.users.any (fun u => u.email == em) = true := by
    rw [hany]
    exact Bool.false_ne_true
  have hne : ∀ u ∈ s.users, u.account_number ≠ s.next_account :=
    fun u hu => Nat.ne_of_lt (husern u hu)
  have hfind_old : s.users.find?
      (fun v => v.account_number == s.next_account) = none :=
    List.find?_eq_none.mpr (fun u hu => by simp [hne u hu])
  have hfind_new : (s.users ++
      [(⟨s.next_account, fn, em, ph, pw, d, s.clock⟩ : Account)]).find?
      (fun v => v.account_number == s.next_account) =
      some ⟨s.next_account, fn, em, ph, pw, d, s.clock⟩ := by
    rw [List.find?_append, hfind_old, Option.none_or]
    simp
  have hfilold : s.transactions.filter
      (fun t2 => t2.account_number == s.next_account) = [] :=
    List.filter_eq_nil_iff.mpr
      (fun t2 ht2 => by simp [Nat.ne_of_lt (htxn t2 ht2)])
  by_cases hd0 : 0 < d
  · have heq : register_user s fn em ph pw d =
        (some s.next_account,
          (⟨s.users ++ [⟨s.next_account, fn, em, ph, pw, d, s.clock⟩],
            s.transactions ++
              [⟨s.next_txid, s.next_account, "Deposit", d, d, s.clock + 1⟩],
            s.next_account + 1, s.next_txid + 1, s.clock + 1 + 1⟩ :
            BankState)) := by
      unfold register_user
      rw [if_neg hdup]
      simp [record_transaction, hd0]
    refine ⟨_, heq, ⟨s.next_account, fn, em, ph, pw, d, s.clock⟩, hfind_new, rfl,
      ?_, ?_⟩
    · intro hdpos
      refine ⟨⟨s.next_txid, s.next_account, "Deposit", d, d, s.clock + 1⟩,
        ?_, rfl, rfl, rfl⟩
      show ((s.transactions ++
          [(⟨s.next_txid, s.next_account, "Deposit", d, d, s.clock + 1⟩ :
            Transaction)]).filter
          (fun t2 => t2.account_number == s.next_account)) = _
      rw [List.filter_append, hfilold, List.nil_append]
      simp
    · intro hdz
      exact absurd (hdz ▸ hd0) (lt_irrefl 0)
  · have heq : register_user s fn em ph pw d =
        (some s.next_account,
          (⟨s.users ++ [⟨s.next_account, fn, em, ph, pw, d, s.clock⟩],
            s.transactions, s.next_account + 1, s.next_txid, s.clock + 1⟩ :
            BankState)) := by
      unfold register_user
      rw [if_neg hdup]
      simp [hd0]
    refine ⟨_, heq, ⟨s.next_account, fn, em, ph, pw, d, s.clock⟩, hfind_new, rfl,
      ?_, ?_⟩
    · intro hdpos
      exact absurd hdpos hd0
    · intro hdz
      exact hfilold

/-- Witness for C4: registering "A" with deposit 100 on the fresh database. -/
theorem register_fresh_spec_witness :
    ∃ s2, register_user initState "A" "a@x.com" "555" "pw" 100 =
        (some initState.next_account, s2) ∧
      ∃ u, findUser s2 initState.next_account = some u ∧ u.balance = 100 ∧
        ((0 : Rat) < 100 → ∃ tx, txs_of s2 initState.next_account = [tx] ∧
          tx.transaction_type = "Deposit" ∧ tx.amount = 100 ∧
          tx.balance_after = 100) ∧
        ((100 : Rat) = 0 → txs_of s2 initState.next_account = []) :=
  register_fresh_spec initState Reachable.init "A" "a@x.com" "555" "pw" 100
    (by norm_num) (by intro u hu; simp [initState] at hu)
